import Mathlib

/-!
Verification development for the `gi` font library and struct-table-view
sources.  Go code is shallowly embedded: slices become `List`, maps become
association lists, `reflect` machine types become small tag structures,
side-effecting calls become explicit state passing plus event traces,
run-time panics become an explicit outcome, and the filesystem (the
directory scan and the font-file decoder) becomes oracle function
parameters.  Floating-point scalars are modelled as rationals.
-/

set_option autoImplicit false

namespace Gi

/-! ## Generic helpers for the Go primitives used by the sources -/

/-- Go `math.Round`: round half away from zero, modelled on rationals.
Written on the reduced numerator/denominator with integer operations only
(`⌊|x| + 1/2⌋ = (2*|num| + den) / (2*den)`, every operand nonnegative), so
that concrete instances evaluate inside the kernel. -/
def mathRound (x : ℚ) : ℤ :=
  if x.num < 0 then -((2 * (-x.num) + (x.den : ℤ)) / (2 * (x.den : ℤ)))
  else (2 * x.num + (x.den : ℤ)) / (2 * (x.den : ℤ))

/-- Semantics of Go `reflect.Copy(l[dstStart:dstStart+n], l[srcStart:srcStart+n])`
on a single backing array `l`: like `memmove`, the source region is read in
full before the destination region is overwritten. -/
def copySeg {α : Type} (l : List α) (dstStart srcStart n : Nat) : List α :=
  l.take dstStart ++ (l.drop srcStart).take n ++ l.drop (dstStart + n)

/-- Lookup in an association-list model of a Go map. -/
def lookupKey {κ β : Type} [DecidableEq κ] : List (κ × β) → κ → Option β
  | [], _ => none
  | p :: ps, k => if p.1 = k then some p.2 else lookupKey ps k

/-- Go map lookup returning the zero value `""` on a missing key, as in
`path := fl.FontsAvail[fontnm]`. -/
def lookupD (m : List (String × String)) (k : String) : String :=
  match lookupKey m k with
  | some v => v
  | none => ""

/-- Go `delete(m, k)` on an association-list model of a map. -/
def eraseKey {κ β : Type} [DecidableEq κ] (m : List (κ × β)) (k : κ) : List (κ × β) :=
  m.filter (fun p => p.1 ≠ k)

/-- Go `m[k] = v` on an association-list model of a map. -/
def insertKey {κ β : Type} [DecidableEq κ] (m : List (κ × β)) (k : κ) (v : β) : List (κ × β) :=
  (k, v) :: eraseKey m k

/-- Whether `sub` occurs at the start of `s` (character lists). -/
def matchesAt : List Char → List Char → Bool
  | [], _ => true
  | _ :: _, [] => false
  | a :: asc, b :: bs => a = b && matchesAt asc bs

/-- Whether `sub` occurs anywhere inside `s` (character lists). -/
def containsAux (sub : List Char) : List Char → Bool
  | [] => sub.isEmpty
  | s@(_ :: rest) => matchesAt sub s || containsAux sub rest

/-- Go `strings.Contains s sub`. -/
def strContains (s sub : String) : Bool :=
  containsAux sub.toList s.toList

/-- ASCII whitespace, for `strings.TrimSpace` (the font-family strings this
code trims are ASCII). -/
def isSpaceChar (c : Char) : Bool :=
  c = ' ' || c = '\t' || c = '\n' || c = '\r'

/-- Drop leading whitespace from a character list. -/
def dropSpace : List Char → List Char
  | [] => []
  | c :: cs => if isSpaceChar c then dropSpace cs else c :: cs

/-- Go `strings.TrimSpace` (ASCII whitespace model). -/
def goTrim (s : String) : String :=
  String.mk ((dropSpace (dropSpace s.toList).reverse).reverse)

/-- Go `strings.ToLower` (ASCII model: the font names involved are ASCII). -/
def goToLower (s : String) : String :=
  String.mk (s.toList.map Char.toLower)

/-- Splitting a character list at commas, accumulating the current field. -/
def splitCommaAux (acc : List Char) : List Char → List String
  | [] => [String.mk acc.reverse]
  | c :: cs =>
    if c = ',' then String.mk acc.reverse :: splitCommaAux [] cs
    else splitCommaAux (c :: acc) cs

/-- Go `strings.Split(s, ",")`. -/
def goSplitComma (s : String) : List String :=
  splitCommaAux [] s.toList

/-! ## StructTableView: slice mutation (`SliceNewAt`, `SliceDelete`)

The slice of struct records becomes `List α`; `reflect.New(svtyp.Elem())`
yields the zero value of the record type, passed in as `zero`. -/

/-- Embedding of `StructTableView.SliceNewAt` (part_001 lines 223-235): the
effect on the viewed slice.  `reflect.Append` adds `zero` at the end; when
`0 ≤ idx ∧ idx < sz-1` the elements `idx..sz-1` are shifted right via
`reflect.Copy` on the appended slice and slot `idx` is set to `zero`. -/
def sliceNewAt {α : Type} (zero : α) (l : List α) (idx : Int) : List α :=
  let sz : Int := l.length
  let svnp := l ++ [zero]
  if 0 ≤ idx ∧ idx < sz - 1 then
    (copySeg svnp (idx.toNat + 1) idx.toNat (sz - idx).toNat).set idx.toNat zero
  else
    svnp

/-- Embedding of `StructTableView.SliceDelete` (part_001 lines 245-254): the
effect on the viewed slice.  `reflect.Copy` shifts `idx+1..sz-1` left by one,
slot `sz-1` is zeroed, and the slice is re-sliced to length `sz-1`. -/
def sliceDelete {α : Type} (zero : α) (l : List α) (idx : Int) : List α :=
  let sz : Int := l.length
  let svnp := copySeg l idx.toNat (idx.toNat + 1) (sz.toNat - (idx.toNat + 1))
  ((svnp.set (sz.toNat - 1) zero).take (sz.toNat - 1))

/-! ## StructTableView: side-effect traces for the temporal claim -/

/-- Observable side effects of the slice-mutating operations, in program
order. -/
inductive Ev where
  | updateStart
  | mutateSlice
  | saveTmp
  | setFullReRender
  | updateEnd
  | viewSigEmit
  deriving DecidableEq, Repr

/-- Side-effect trace of `SliceNewAt` (part_001 lines 223-242):
`UpdateStart`, the slice mutation, `TmpSave.SaveTmp()` when a pending-save
handle is bound, `SetFullReRender`, `UpdateEnd`, `ViewSig.Emit`. -/
def sliceNewAtTrace (tmpSaveBound : Bool) : List Ev :=
  [Ev.updateStart, Ev.mutateSlice]
    ++ (if tmpSaveBound then [Ev.saveTmp] else [])
    ++ [Ev.setFullReRender, Ev.updateEnd, Ev.viewSigEmit]

/-- Side-effect trace of `SliceDelete` (part_001 lines 245-261): identical
effect ordering to `SliceNewAt` after its own slice mutation. -/
def sliceDeleteTrace (tmpSaveBound : Bool) : List Ev :=
  [Ev.updateStart, Ev.mutateSlice]
    ++ (if tmpSaveBound then [Ev.saveTmp] else [])
    ++ [Ev.setFullReRender, Ev.updateEnd, Ev.viewSigEmit]

/-! ## StructTableView: `SetSlice` -/

/-- Identity of a Go type as `reflect` sees it: `isStruct` is
`Kind() == reflect.Struct`, `nfld` is `NumField()` for struct kinds, and
`tid` distinguishes types that agree on the modelled data (two different
struct types may share a field count).  Equality of `GoType` values models
identity of the underlying Go types. -/
structure GoType where
  isStruct : Bool
  nfld : Nat
  tid : Nat
  deriving DecidableEq, Repr

/-- The slice value handed to `SetSlice` as an `interface{}`: the `reflect`
data the code inspects.  `elem` is the dynamic element type
(`reflect.TypeOf(sl).Elem()`), `len` the slice length, and `id`
distinguishes distinct slice values of the same type (the interface
comparison in the source never reaches values for slices, since it panics
on identical dynamic types first). -/
structure SliceRef where
  elem : GoType
  len : Nat
  id : Nat
  deriving DecidableEq, Repr

/-- Outcome of running a Go statement that can panic. -/
inductive GoResult (α : Type) where
  | ok (a : α)
  | panicked
  deriving DecidableEq, Repr

/-- Go interface inequality `sv.Slice != sl` for an argument `sl` holding a
slice: a nil interface compares unequal to a non-nil one; two non-nil
interfaces with different dynamic types compare unequal; identical dynamic
types cause a run-time panic, because slice types are not comparable.  The
dynamic type of the held slice is its element type (`[]T` is identical to
`[]U` exactly when `T` is `U`). -/
def slicesNe (cur : Option SliceRef) (sl : SliceRef) : GoResult Bool :=
  match cur with
  | none => GoResult.ok true
  | some c => if c.elem = sl.elem then GoResult.panicked else GoResult.ok true

/-- The `StructTableView` state that `SetSlice` touches: the viewed slice,
the pending-save handle, and the `Values` grid (cells abstracted to `Unit`,
only the field-by-row shape is tracked). -/
structure STView where
  Slice : Option SliceRef
  TmpSave : Option Nat
  Values : List (List Unit)
  deriving DecidableEq, Repr

/-- Embedding of `StructTableView.ConfigSliceGrid` (part_001 lines 126-141)
restricted to its effect on `Values`: no-op when the slice is nil, otherwise
`Values` becomes a fresh `nfld × sz` grid.  (The widget-tree reconciliation
that follows only touches child widgets, not `Values`.) -/
def ConfigSliceGrid (sv : STView) : STView :=
  match sv.Slice with
  | none => sv
  | some sl =>
    { sv with Values := List.replicate sl.elem.nfld (List.replicate sl.len ()) }

/-- Embedding of `StructTableView.SetSlice` (part_001 lines 37-51).  The
guard `sv.Slice != sl` (line 39) is the interface comparison `slicesNe`,
which panics when both sides hold slices of the identical dynamic type; the
equal branch of the source (skip the swap, still store `tmpSave` and
rebuild) is therefore unreachable for slice arguments but kept to mirror
the code.  On normal return the result carries the new view state and
whether the non-struct diagnostic was logged.  `UpdateFromSlice` rebuilds
the grid via `ConfigSliceGrid` (its `StdConfig`/`ConfigSliceButtons` parts
touch only child widgets). -/
def SetSlice (sv : STView) (sl : SliceRef) (tmpSave : Option Nat) :
    GoResult (STView × Bool) :=
  match slicesNe sv.Slice sl with
  | GoResult.panicked => GoResult.panicked
  | GoResult.ok ne =>
    if ne then
      if sl.elem.isStruct = false then
        GoResult.ok (sv, true)
      else
        let sv := { sv with Slice := some sl }
        let sv := { sv with TmpSave := tmpSave }
        GoResult.ok (ConfigSliceGrid sv, false)
    else
      let sv := { sv with TmpSave := tmpSave }
      GoResult.ok (ConfigSliceGrid sv, false)

/-- States reachable through `SetSlice`: the held slice, if any, has a struct
element type (a non-struct slice is rejected before being stored). -/
def STView.inv (sv : STView) : Prop :=
  ∀ sl, sv.Slice = some sl → sl.elem.isStruct = true

/-! ## Font style enums (font.go lines 310-345) -/

/-- Enum `FontStyles` (font.go lines 313-318). -/
inductive FontStyles where
  | FontNormal
  | FontItalic
  | FontOblique
  deriving DecidableEq, Repr

/-- Enum `FontWeights` (font.go lines 330-345). -/
inductive FontWeights where
  | WeightNormal
  | WeightBold
  | WeightBolder
  | WeightLighter
  | Weight100
  | Weight200
  | Weight300
  | Weight400
  | Weight500
  | Weight600
  | Weight700
  | Weight800
  | Weight900
  deriving DecidableEq, Repr

/-! ## Faces and metrics -/

/-- Glyph bounding box in 26.6 fixed-point font units
(`fixed.Rectangle26_6` from `golang.org/x/image/math/fixed`). -/
structure BBox where
  minX : Int
  minY : Int
  maxX : Int
  maxY : Int

/-- Model of a loaded `font.Face`: exactly the pieces `ComputeMetrics`
reads.  `metricsHeight` is `Face.Metrics().Height` (26.6 fixed-point);
`glyphBounds c` is `Face.GlyphBounds(c)` with the `ok` flag as `Option`. -/
structure Face where
  metricsHeight : Int
  glyphBounds : Char → Option BBox

/-- Modelled from the spec: `FixedToFloat32` (defined in this repository
outside the provided sources) converts a 26.6 fixed-point font unit to a
floating device unit, i.e. divides by 64. -/
def FixedToFloat32 (x : Int) : ℚ :=
  (x : ℚ) / 64

/-- Modelled from the spec: the DPI context `units.Context` (this
repository's `units` package, outside the provided sources), reduced to the
one capability `ComputeMetrics` uses: `ToDots(x, units.Pt)`, conversion of a
point value to device dots. -/
structure UnitsContext where
  toDotsPt : ℚ → ℚ

/-- The `FontStyle` fields used by `FaceNm`, `LoadFont` and
`ComputeMetrics`.  `SizeDots` is `Size.Dots`, the requested size already
converted to device dots (the `units.Value` modelled by its cached dots). -/
structure FontStyle where
  Family : String
  Style : FontStyles
  Weight : FontWeights
  Face : Option Face
  Height : ℚ
  Em : ℚ
  Ex : ℚ
  Ch : ℚ
  Rem : ℚ
  SizeDots : ℚ
  FaceName : String

/-! ## The font library -/

/-- The `FontLib` state read and written by `Font` and `FontAvail`
(font.go lines 461-468): `FontsAvail` maps lowercased font name → file
path, `Faces` caches loaded faces per (name, point-size).  Go maps become
association lists; the face type is a parameter so the library can be
studied with an arbitrary face representation. -/
structure FontLib (F : Type) where
  FontPaths : List String
  FontsAvail : List (String × String)
  Faces : List (String × List (ℚ × F))
  deriving DecidableEq

/-- The two-level cache lookup at the top of `FontLib.Font` (font.go lines
646-651): a `nil` face map or a `nil` face entry both mean a miss. -/
def lookupFace {F : Type} (faces : List (String × List (ℚ × F)))
    (nm : String) (points : ℚ) : Option F :=
  match lookupKey faces nm with
  | none => none
  | some facemap => lookupKey facemap points

/-- The cache insertion in `FontLib.Font` (font.go lines 659-667):
allocate the per-name face map if absent, then store the face under the
requested point size. -/
def insertFace {F : Type} (faces : List (String × List (ℚ × F)))
    (nm : String) (points : ℚ) (face : F) : List (String × List (ℚ × F)) :=
  let facemap := match lookupKey faces nm with
    | none => []
    | some fm => fm
  insertKey faces nm (insertKey facemap points face)

/-- Errors returned by `FontLib.Font`: the not-found error reports the
searched `FontPaths` (font.go line 670); the load error wraps the decoder
failure for the offending name and path (font.go lines 654-657). -/
inductive FontErr where
  | notFound (name : String) (paths : List String)
  | loadErr (name : String) (path : String)
  deriving DecidableEq, Repr

/-- Embedding of `FontLib.Init` (font.go lines 504-517) on the fields the
model tracks, locking aside.  A nil `FontPaths` is conflated with the empty
list: in both Go branches for that case (allocate fresh empty maps, or run
`UpdateFontsAvail` with no paths, which only logs) the tracked state is
unchanged.  When paths are configured and the availability index is empty,
`UpdateFontsAvail` (font.go lines 537-553) rebuilds `FontsAvail` from the
filesystem walk over the paths, modelled by the oracle
`scan : FontPaths → availability map`; the `Faces` cache and `FontPaths`
are never touched (`FontInfo` is outside the model). -/
def FontLib.Init {F : Type} (scan : List String → List (String × String))
    (fl : FontLib F) : FontLib F :=
  if fl.FontPaths = [] then fl
  else if fl.FontsAvail = [] then { fl with FontsAvail := scan fl.FontPaths }
  else fl

/-- Embedding of `FontLib.Font` (font.go lines 643-671), including the
`fl.Init()` call at its top (font.go line 645), whose rescan can repopulate
an emptied availability index before the lookups.  The filesystem is the
oracle pair `scan` (directory walk, see `FontLib.Init`) and `decode`
(`LoadFontFace`, font.go lines 673-703: `none` = decode failure).  Returns
the result, the new library state, and the number of decoder invocations
made. -/
def FontLib.Font {F : Type} (scan : List String → List (String × String))
    (decode : String → ℚ → Option F) (fl : FontLib F)
    (fontnm : String) (points : ℚ) : Except FontErr F × FontLib F × Nat :=
  let fontnm := goToLower fontnm
  let fl := FontLib.Init scan fl
  match lookupFace fl.Faces fontnm points with
  | some face => (Except.ok face, fl, 0)
  | none =>
    let path := lookupD fl.FontsAvail fontnm
    if path ≠ "" then
      match decode path points with
      | none =>
        (Except.error (FontErr.loadErr fontnm path),
         { fl with FontsAvail := eraseKey fl.FontsAvail fontnm }, 1)
      | some face =>
        (Except.ok face,
         { fl with Faces := insertFace fl.Faces fontnm points face }, 1)
    else
      (Except.error (FontErr.notFound fontnm fl.FontPaths), fl, 0)

/-- Embedding of `FontLib.FontAvail` (font.go lines 706-710).  `fl` is the
method receiver; `FontLibrary` is the package-global singleton that the
method body actually consults for the membership test. -/
def FontLib.FontAvail {F : Type} (FontLibrary : FontLib F) (fl : FontLib F)
    (fontnm : String) : Bool :=
  let fontnm := goToLower fontnm
  (lookupKey FontLibrary.FontsAvail fontnm).isSome

/-! ## Face-name resolution (`FaceNm`) -/

/-- The family-resolution loop of `FaceNm` (font.go lines 104-146):
`avail` is `FontLibrary.FontAvail`, `fnm` the resolution so far.  In Go the
`break`s inside the `switch` leave the switch, not the loop, so after a
generic-keyword match resolution continues over the remaining names; only
an available name leaves the loop early. -/
def resolveLoop (avail : String → Bool) (fnm : String) : List String → String
  | [] => fnm
  | fn :: nms =>
    let fn := goTrim fn
    if avail fn then fn
    else
      let fnm :=
        if fn = "times" then "Times New Roman"
        else if fn = "serif" then "Times New Roman"
        else if fn = "sans-serif" then "Arial"
        else if fn = "courier" then "Courier New"
        else if fn = "monospace" then
          if avail "Andale Mono" then "Andale Mono" else "Courier New"
        else if fn = "cursive" then
          if avail "Comic Sans" then "Comic Sans"
          else if avail "Comic Sans MS" then "Comic Sans MS"
          else fnm
        else if fn = "fantasy" then
          if avail "Impact" then "Impact"
          else if avail "Impac" then "Impac"
          else fnm
        else fnm
      resolveLoop avail fnm nms

/-- The modifier-word computation of `FaceNm` (font.go lines 147-174): the
`mods` string accumulated for the requested style/weight combination given
the resolved name `fnm`.  Note that the oblique-only branch of the source
appends the misspelt `"Obqlique"` (font.go line 168) after checking for
`"Oblique"`. -/
def faceNmMods (style : FontStyles) (weight : FontWeights) (fnm : String) : String :=
  if style = FontStyles.FontItalic ∧ weight = FontWeights.WeightBold then
    (if strContains fnm "Bold" then "" else "Bold ")
      ++ (if strContains fnm "Italic" then "" else "Italic")
  else if style = FontStyles.FontOblique ∧ weight = FontWeights.WeightBold then
    (if strContains fnm "Bold" then "" else "Bold ")
      ++ (if strContains fnm "Oblique" then "" else "Oblique")
  else if style = FontStyles.FontItalic then
    if strContains fnm "Italic" then "" else "Italic"
  else if style = FontStyles.FontOblique then
    if strContains fnm "Oblique" then "" else "Obqlique"
  else if weight = FontWeights.WeightBold then
    if strContains fnm "Bold" then "" else "Bold "
  else ""

/-- Embedding of `FontStyle.FaceNm` (font.go lines 99-184).  `avail` is
`FontLibrary.FontAvail`; `prefsFontFamily` is the global
`Prefs.FontFamily`.  Returns the resolved face name and whether the
could-not-find-modified-name diagnostic was logged (font.go line 180). -/
def FaceNm (avail : String → Bool) (prefsFontFamily : String) (fs : FontStyle) :
    String × Bool :=
  let fnm := if prefsFontFamily = "" then "Arial" else prefsFontFamily
  let fnm := resolveLoop avail fnm (goSplitComma fs.Family)
  let mods := faceNmMods fs.Style fs.Weight fnm
  if mods ≠ "" then
    let fmod := fnm ++ " " ++ goTrim mods
    if avail fmod then (fmod, false) else (fnm, true)
  else (fnm, false)

/-! ## Metrics computation and font loading -/

/-- Embedding of `FontStyle.ComputeMetrics` (font.go lines 211-236). -/
def ComputeMetrics (ctxt : UnitsContext) (fs : FontStyle) : FontStyle :=
  match fs.Face with
  | none => fs
  | some face =>
    let intDots : ℚ := (mathRound fs.SizeDots : ℚ)
    let intDots := if intDots = 0 then 12 else intDots
    let fs := { fs with Height := (⌈FixedToFloat32 face.metricsHeight⌉ : ℚ) }
    let fs := { fs with Em := intDots }
    let fs :=
      match face.glyphBounds 'x' with
      | some xb => { fs with Ex := FixedToFloat32 (xb.maxY - xb.minY) }
      | none => { fs with Ex := 0.5 * fs.Em }
    let fs :=
      match face.glyphBounds '0' with
      | some xb => { fs with Ch := FixedToFloat32 (xb.maxX - xb.minX) }
      | none => { fs with Ch := 0.5 * fs.Em }
    { fs with Rem := ctxt.toDotsPt 12 }

/-- Model of the external `basicfont.Face7x13` bitmap face
(`golang.org/x/image/font/basicfont`), the terminal fallback of
`LoadFont`; only its identity matters to the claims. -/
def Face7x13 : Face :=
  { metricsHeight := 13 * 64, glyphBounds := fun _ => none }

/-- Embedding of `FontStyle.LoadFont` (font.go lines 186-209).  The global
`FontLibrary` is threaded as explicit state `fl`; `decode` is the
font-file decoder oracle and `scan` the directory-walk oracle of the
library's `Init`; `prefsFontFamily` feeds `FaceNm`.  Besides the
updated style and library, the result carries the log of `(name, points)`
requests made to `FontLib.Font`, in order.  `SetUnitContext` (font.go line
208) mutates only the units context (external `units` package), never the
style, and is omitted. -/
def LoadFont (scan : List String → List (String × String))
    (decode : String → ℚ → Option Face) (prefsFontFamily : String)
    (ctxt : UnitsContext) (fl : FontLib Face) (fs : FontStyle) (fallback : String) :
    FontStyle × FontLib Face × List (String × ℚ) :=
  let avail := fun nm => FontLib.FontAvail fl fl nm
  let fs := { fs with FaceName := (FaceNm avail prefsFontFamily fs).1 }
  let intDots : ℚ := (mathRound fs.SizeDots : ℚ)
  let intDots := if intDots = 0 then 12 else intDots
  let req := (fs.FaceName, intDots)
  match FontLib.Font scan decode fl fs.FaceName intDots with
  | (Except.ok face, fl, _) =>
    let fs := { fs with Face := some face }
    (ComputeMetrics ctxt fs, fl, [req])
  | (Except.error _, fl, _) =>
    if fs.Face.isNone then
      if fallback ≠ "" then
        let fs := { fs with FaceName := fallback }
        let r := LoadFont scan decode prefsFontFamily ctxt fl fs ""
        (ComputeMetrics ctxt r.1, r.2.1, req :: r.2.2)
      else
        let fs := { fs with Face := some Face7x13 }
        (ComputeMetrics ctxt fs, fl, [req])
    else
      (ComputeMetrics ctxt fs, fl, [req])
termination_by fallback.length
decreasing_by
  rename_i hne
  have hd : fallback.data ≠ [] := by
    intro h
    apply hne
    cases fallback
    simp_all
  simp only [String.length]
  simpa using List.length_pos.mpr hd

/-! ## Concrete fixtures used by the closed theorems -/

/-- A DPI context whose point-to-dots conversion is the identity. -/
def ctxt0 : UnitsContext :=
  { toDotsPt := fun x => x }

/-- A face reporting no glyph bounds at all. -/
def faceNoGlyphs : Face :=
  { metricsHeight := 0, glyphBounds := fun _ => none }

/-- An oblique-styled `FontStyle` asking for the `Courier` family. -/
def fsCourierOblique : FontStyle :=
  { Family := "Courier", Style := FontStyles.FontOblique,
    Weight := FontWeights.WeightNormal, Face := none, Height := 0, Em := 0,
    Ex := 0, Ch := 0, Rem := 0, SizeDots := 0, FaceName := "" }

/-- A zero-size normal style holding `faceNoGlyphs`. -/
def fsZeroSize : FontStyle :=
  { fsCourierOblique with
    Family := ""
    Style := FontStyles.FontNormal
    Face := some faceNoGlyphs }

/-- A zero-size normal style with no face loaded yet. -/
def fsZeroNoFace : FontStyle :=
  { fsZeroSize with Face := none }

/-- A library whose face cache holds `arial` at size 12 while the
availability index is empty: the state left behind when `UpdateFontsAvail`
clears `FontsAvail` (font.go lines 542-544) without touching `Faces`, or
when `Font` evicts a name after a decode failure at another size. -/
def flCachedOnly : FontLib Nat :=
  { FontPaths := ["/fonts"], FontsAvail := [], Faces := [("arial", [(12, 7)])] }

/-- A library that knows a path for `arial` and has an empty face cache. -/
def flArial : FontLib Nat :=
  { FontPaths := ["/fonts"], FontsAvail := [("arial", "/fonts/arial.ttf")],
    Faces := [] }

/-- A library indexing two fonts, so that evicting one still leaves the
availability index nonempty (no automatic rescan on the next call). -/
def flTwoFonts : FontLib Nat :=
  { FontPaths := ["/fonts"],
    FontsAvail := [("arial", "/fonts/arial.ttf"), ("georgia", "/fonts/georgia.ttf")],
    Faces := [] }

/-- The empty, initialized library over model faces. -/
def flEmptyFace : FontLib Face :=
  { FontPaths := [], FontsAvail := [], Faces := [] }

/-! ## Helper lemmas (shared) -/

/-- On an initialized library — availability index nonempty, or no font
paths configured — `Init` changes nothing. -/
theorem init_noop {F : Type} (scan : List String → List (String × String))
    (fl : FontLib F) (h : fl.FontsAvail ≠ [] ∨ fl.FontPaths = []) :
    FontLib.Init scan fl = fl := by
  unfold FontLib.Init
  rcases h with h | h
  · by_cases hp : fl.FontPaths = [] <;> simp [hp, h]
  · simp [h]

/-- `Init` never touches the face cache. -/
theorem init_faces {F : Type} (scan : List String → List (String × String))
    (fl : FontLib F) : (FontLib.Init scan fl).Faces = fl.Faces := by
  unfold FontLib.Init
  split
  · rfl
  · split <;> rfl

theorem lookupKey_insertKey {κ β : Type} [DecidableEq κ] (m : List (κ × β)) (k : κ) (v : β) :
    lookupKey (insertKey m k v) k = some v := by
  simp [insertKey, lookupKey]

theorem lookupKey_eraseKey {κ β : Type} [DecidableEq κ] (m : List (κ × β)) (k : κ) :
    lookupKey (eraseKey m k) k = none := by
  induction m with
  | nil => rfl
  | cons p ps ih =>
    by_cases h : p.1 = k
    · simpa [eraseKey, List.filter, h] using ih
    · simpa [eraseKey, List.filter, h, lookupKey] using ih

theorem lookupFace_insertFace {F : Type} (faces : List (String × List (ℚ × F)))
    (nm : String) (pts : ℚ) (face : F) :
    lookupFace (insertFace faces nm pts face) nm pts = some face := by
  simp [lookupFace, insertFace, lookupKey_insertKey]

/-- The function `ComputeMetrics` writes only the metric fields. -/
theorem computeMetrics_preserve (ctxt : UnitsContext) (fs : FontStyle) :
    (ComputeMetrics ctxt fs).SizeDots = fs.SizeDots ∧
    (ComputeMetrics ctxt fs).Face = fs.Face := by
  unfold ComputeMetrics
  cases h : fs.Face with
  | none => simp [h]
  | some face =>
    simp only [h]
    cases hx : face.glyphBounds 'x' <;> cases h0 : face.glyphBounds '0' <;>
      simp [hx, h0]

/-- The `Em` computation of `ComputeMetrics`, with the zero-size clamp. -/
theorem computeMetrics_em (ctxt : UnitsContext) (fs : FontStyle) (face : Face)
    (hf : fs.Face = some face) :
    (ComputeMetrics ctxt fs).Em =
      if mathRound fs.SizeDots = 0 then 12 else (mathRound fs.SizeDots : ℚ) := by
  unfold ComputeMetrics
  rw [hf]
  cases hx : face.glyphBounds 'x' <;> cases h0 : face.glyphBounds '0' <;>
    simp only [hx, h0, Int.cast_eq_zero] <;> split <;> simp_all

/-! ## Claim theorems -/

/-- C1: the claim states that `SliceNewAt(k)` for every `0 ≤ k < N` inserts
the zero record at position `k`.  The source guard `idx >= 0 && idx < sz-1`
(part_001 line 231) excludes `k = N-1`: on the one-record slice `[1]`,
`SliceNewAt(0)` leaves the existing record at position 0 and appends the
zero record at the end, instead of inserting the zero record at position 0
as the claim (and the function's own doc comment, part_001 line 222)
requires. -/
theorem sliceNewAt_last_index_bug :
    sliceNewAt (0 : ℤ) [1] 0 = [1, 0] ∧
    sliceNewAt (0 : ℤ) [1] 0 ≠ [0, 1] ∧
    sliceNewAt (0 : ℤ) [1, 2, 3] 2 = [1, 2, 3, 0] := by
  decide

/-- C2: the claim states that for an oblique style (without bold) `FaceNm`
appends exactly `" Oblique"`.  The source instead appends the misspelt
`"Obqlique"` (font.go line 168) right after checking the name for
`"Oblique"`: with every name available and the resolved family `Courier`,
the returned face name is `"Courier Obqlique"`, not `"Courier Oblique"`. -/
theorem faceNm_oblique_misspelt :
    (FaceNm (fun _ => true) "Arial" fsCourierOblique).1 = "Courier Obqlique" ∧
    faceNmMods FontStyles.FontOblique FontWeights.WeightNormal "Courier" = "Obqlique" ∧
    strContains "Courier" "Oblique" = false := by
  decide

/-- C8: in both mutating operations (`SliceNewAt`, `SliceDelete`), when a
pending-save handle is bound, the `SaveTmp` hook appears in the side-effect
trace strictly before the `ViewSig` emission. -/
theorem saveTmp_before_viewSig (b : Bool) (hb : b = true) :
    Ev.saveTmp ∈ sliceNewAtTrace b ∧
    (sliceNewAtTrace b).indexOf Ev.saveTmp < (sliceNewAtTrace b).indexOf Ev.viewSigEmit ∧
    Ev.saveTmp ∈ sliceDeleteTrace b ∧
    (sliceDeleteTrace b).indexOf Ev.saveTmp < (sliceDeleteTrace b).indexOf Ev.viewSigEmit := by
  subst hb
  decide

/-- Witness for C8 at a bound pending-save handle. -/
theorem saveTmp_before_viewSig_witness :
    Ev.saveTmp ∈ sliceNewAtTrace true ∧
    (sliceNewAtTrace true).indexOf Ev.saveTmp < (sliceNewAtTrace true).indexOf Ev.viewSigEmit ∧
    Ev.saveTmp ∈ sliceDeleteTrace true ∧
    (sliceDeleteTrace true).indexOf Ev.saveTmp < (sliceDeleteTrace true).indexOf Ev.viewSigEmit :=
  saveTmp_before_viewSig true rfl

/-- C9: `FontLib.FontAvail` tests the lowercased name against the global
singleton `FontLibrary`'s `FontsAvail` map; the receiver's own availability
state never influences the result. -/
theorem fontAvail_ignores_receiver {F : Type} (FontLibrary fl fl' : FontLib F)
    (fontnm : String) :
    FontLib.FontAvail FontLibrary fl fontnm = FontLib.FontAvail FontLibrary fl' fontnm ∧
    FontLib.FontAvail FontLibrary fl fontnm = FontLib.FontAvail FontLibrary FontLibrary fontnm ∧
    FontLib.FontAvail FontLibrary fl fontnm =
      (lookupKey FontLibrary.FontsAvail (goToLower fontnm)).isSome :=
  ⟨rfl, rfl, rfl⟩

/-- C3 counterexample: the claim says every struct-record slice is accepted
and the grid rebuilt; but on a view already holding a slice of the same
dynamic type, the comparison `sv.Slice != sl` (part_001 line 39) compares
two interfaces with identical uncomparable dynamic types and panics — here
on a 2-field struct slice re-set with a distinct slice value (id 1) of the
same element type as the held one (id 0). -/
theorem setSlice_same_type_panics :
    (⟨⟨true, 2, 7⟩, 3, 1⟩ : SliceRef).elem.isStruct = true ∧
    SetSlice ⟨some ⟨⟨true, 2, 7⟩, 3, 0⟩, none, []⟩ ⟨⟨true, 2, 7⟩, 3, 1⟩ (some 5) =
      GoResult.panicked := by
  decide

/-- C3 (amended for the interface-comparison panic): on a reachable view
state, a slice of struct records is accepted and the grid rebuilt as the
record type's field count by the slice length, provided the view does not
already hold a slice of the same dynamic type; when it does, `SetSlice`
panics on the interface comparison; and a slice whose element type is not
a struct only logs the diagnostic and leaves `Slice`, `TmpSave` and
`Values` untouched. -/
theorem setSlice_struct_gate (sv : STView) (sl : SliceRef) (ts : Option Nat)
    (hinv : sv.inv) :
    (sl.elem.isStruct = true →
      (∀ cur, sv.Slice = some cur → cur.elem ≠ sl.elem) →
      SetSlice sv sl ts =
        GoResult.ok
          ({ Slice := some sl
             TmpSave := ts
             Values := List.replicate sl.elem.nfld (List.replicate sl.len ()) },
           false)) ∧
    (∀ cur, sv.Slice = some cur → cur.elem = sl.elem →
      SetSlice sv sl ts = GoResult.panicked) ∧
    (sl.elem.isStruct = false → SetSlice sv sl ts = (GoResult.ok (sv, true))) := by
  refine ⟨?_, ?_, ?_⟩
  · intro hs hdiff
    unfold SetSlice slicesNe ConfigSliceGrid
    cases hcur : sv.Slice with
    | none => simp [hs]
    | some cur => simp [hs, hdiff cur hcur]
  · intro cur hcur heq
    unfold SetSlice slicesNe
    simp [hcur, heq]
  · intro hs
    unfold SetSlice slicesNe
    cases hcur : sv.Slice with
    | none => simp [hs]
    | some cur =>
      have hne : cur.elem ≠ sl.elem := by
        intro h
        have := hinv cur hcur
        rw [h, hs] at this
        exact Bool.false_ne_true this
      simp [hs, hne]

/-- Witness for C3 (amended): a fresh view accepts a 2-field-by-3-row
struct slice; a view holding a slice of the same element type panics on a
same-typed re-set; and a fresh view rejects a non-struct slice without
touching any state. -/
theorem setSlice_struct_gate_witness :
    SetSlice ⟨none, none, []⟩ ⟨⟨true, 2, 7⟩, 3, 0⟩ (some 5) =
      GoResult.ok
        ({ Slice := some ⟨⟨true, 2, 7⟩, 3, 0⟩
           TmpSave := some 5
           Values := List.replicate 2 (List.replicate 3 ()) },
         false) ∧
    SetSlice ⟨some ⟨⟨true, 2, 7⟩, 3, 0⟩, none, []⟩ ⟨⟨true, 2, 7⟩, 4, 1⟩ (some 5) =
      GoResult.panicked ∧
    SetSlice ⟨none, none, []⟩ ⟨⟨false, 2, 9⟩, 3, 0⟩ (some 5) =
      GoResult.ok (⟨none, none, []⟩, true) :=
  ⟨(setSlice_struct_gate ⟨none, none, []⟩ ⟨⟨true, 2, 7⟩, 3, 0⟩ (some 5)
      (fun _ h => nomatch h)).1 rfl (fun _ h => nomatch h),
   (setSlice_struct_gate ⟨some ⟨⟨true, 2, 7⟩, 3, 0⟩, none, []⟩ ⟨⟨true, 2, 7⟩, 4, 1⟩
      (some 5) (fun _ h => by cases h; rfl)).2.1 ⟨⟨true, 2, 7⟩, 3, 0⟩ rfl rfl,
   (setSlice_struct_gate ⟨none, none, []⟩ ⟨⟨false, 2, 9⟩, 3, 0⟩ (some 5)
      (fun _ h => nomatch h)).2.2 rfl⟩

/-- Setting the slot right after a prefix and truncating to the prefix
length: the zeroed vacated slot of `SliceDelete` is cut off by the final
re-slice. -/
theorem set_append_take {α : Type} (xs ys : List α) (a : α) :
    ((xs ++ ys).set xs.length a).take xs.length = xs := by
  induction xs with
  | nil => simp
  | cons x xs ih => simpa [List.set] using ih

/-- C6: `SliceDelete(k)` for `0 ≤ k < N` removes the element at `k`,
shifts the elements after `k` down by one (the zeroed vacated final slot
being cut off by the closing re-slice), leaves the first `k` elements
unchanged, and yields length `N-1`. -/
theorem sliceDelete_spec {α : Type} (zero : α) (l : List α) (k : Int)
    (h0 : 0 ≤ k) (hk : k < (l.length : Int)) :
    sliceDelete zero l k = l.take k.toNat ++ l.drop (k.toNat + 1) ∧
    (sliceDelete zero l k).length = l.length - 1 := by
  obtain ⟨n, rfl⟩ : ∃ n : ℕ, k = (n : ℤ) := ⟨k.toNat, (Int.toNat_of_nonneg h0).symm⟩
  have hn : n < l.length := by exact_mod_cast hk
  have hmid : (l.drop (n + 1)).take (l.length - (n + 1)) = l.drop (n + 1) :=
    List.take_of_length_le (by simp)
  have hidx : n + (l.length - (n + 1)) = l.length - 1 := by omega
  have hsvnp :
      copySeg l n (n + 1) (l.length - (n + 1)) =
        (l.take n ++ l.drop (n + 1)) ++ l.drop (l.length - 1) := by
    rw [copySeg, hmid, hidx, List.append_assoc]
  have hlen : (l.take n ++ l.drop (n + 1)).length = l.length - 1 := by
    simp
    omega
  have hmain :
      sliceDelete zero l (n : ℤ) = l.take n ++ l.drop (n + 1) := by
    show ((copySeg l ((n : ℤ)).toNat (((n : ℤ)).toNat + 1)
        (((l.length : ℤ)).toNat - (((n : ℤ)).toNat + 1))).set
        (((l.length : ℤ)).toNat - 1) zero).take (((l.length : ℤ)).toNat - 1) =
      l.take n ++ l.drop (n + 1)
    rw [Int.toNat_natCast, Int.toNat_natCast, hsvnp, ← hlen, set_append_take]
  exact ⟨hmain, by rw [hmain, ← hlen]⟩

/-- Witness for C6 at the three-record slice `[1,2,3]`, deleting index 1. -/
theorem sliceDelete_spec_witness :
    sliceDelete (0 : ℤ) [1, 2, 3] 1 =
      [1, 2, 3].take (1 : ℤ).toNat ++ [1, 2, 3].drop ((1 : ℤ).toNat + 1) ∧
    (sliceDelete (0 : ℤ) [1, 2, 3] 1).length = [1, 2, 3].length - 1 :=
  sliceDelete_spec 0 [1, 2, 3] 1 (by decide) (by decide)

/-- C4 counterexample: the cache is consulted before the availability index
(font.go lines 646-651), so on a library whose `Faces` cache holds `arial`
at size 12 while `FontsAvail` is empty — the state `UpdateFontsAvail`
(font.go lines 542-544) or an eviction under a path change leaves behind —
`Font("arial", 12)` succeeds instead of returning the not-found error the
claim requires for every name absent from `FontsAvail` (here `Init`'s
automatic rescan runs but finds nothing, leaving the index empty). -/
theorem font_cached_despite_unavailable :
    lookupKey flCachedOnly.FontsAvail (goToLower "arial") = none ∧
    (FontLib.Font (fun _ => []) (fun _ _ => none) flCachedOnly "arial" 12).1 =
      Except.ok 7 :=
  ⟨rfl, rfl⟩

/-- C4 (amended with the face-cache-miss and initialized-library premises,
and a nonempty-remainder condition on the eviction consequence): on an
initialized library (availability index nonempty, or no paths configured)
with no cached face at the requested size, a name absent from `FontsAvail`
yields the not-found error carrying the searched paths and leaves the
library untouched; a name mapped to a path whose decode fails yields the
load error and evicts the name from `FontsAvail`; and as long as the index
still holds other entries — so that `Init`'s automatic rescan does not
fire — a repeated request for the same name and size fails as not-found,
whatever the decoder or filesystem would now say. -/
theorem font_error_handling {F : Type}
    (scan scan2 : List String → List (String × String))
    (decode decode2 : String → ℚ → Option F)
    (fl : FontLib F) (nm : String) (pts : ℚ)
    (hinit : fl.FontsAvail ≠ [] ∨ fl.FontPaths = [])
    (hmiss : lookupFace fl.Faces (goToLower nm) pts = none) :
    (lookupKey fl.FontsAvail (goToLower nm) = none →
      FontLib.Font scan decode fl nm pts =
        (Except.error (FontErr.notFound (goToLower nm) fl.FontPaths), fl, 0)) ∧
    (∀ path, lookupKey fl.FontsAvail (goToLower nm) = some path → path ≠ "" →
      decode path pts = none →
      FontLib.Font scan decode fl nm pts =
        (Except.error (FontErr.loadErr (goToLower nm) path),
         { fl with FontsAvail := eraseKey fl.FontsAvail (goToLower nm) }, 1) ∧
      (eraseKey fl.FontsAvail (goToLower nm) ≠ [] →
        FontLib.Font scan2 decode2
            { fl with FontsAvail := eraseKey fl.FontsAvail (goToLower nm) } nm pts =
          (Except.error (FontErr.notFound (goToLower nm) fl.FontPaths),
           { fl with FontsAvail := eraseKey fl.FontsAvail (goToLower nm) }, 0))) := by
  have hI : FontLib.Init scan fl = fl := init_noop scan fl hinit
  constructor
  · intro habs
    unfold FontLib.Font
    simp only [hI, hmiss]
    have hD : lookupD fl.FontsAvail (goToLower nm) = "" := by
      rw [lookupD, habs]
    simp [hD]
  · intro path hpath hne hdec
    have hD : lookupD fl.FontsAvail (goToLower nm) = path := by
      rw [lookupD, hpath]
    constructor
    · unfold FontLib.Font
      simp only [hI, hmiss]
      simp [hD, hne, hdec]
    · intro hrem
      have hI2 : FontLib.Init scan2
          { fl with FontsAvail := eraseKey fl.FontsAvail (goToLower nm) } =
          { fl with FontsAvail := eraseKey fl.FontsAvail (goToLower nm) } :=
        init_noop scan2 _ (Or.inl hrem)
      unfold FontLib.Font
      simp only [hI2, hmiss]
      have hD' : lookupD (eraseKey fl.FontsAvail (goToLower nm)) (goToLower nm) = "" := by
        rw [lookupD, lookupKey_eraseKey]
      simp [hD']

/-- Witness for C4 (amended) on the two-font library: an unknown name
fails as not-found with the library unchanged; a decode failure for
`Arial` (case-insensitive hit on `arial`) fails as a load error and evicts
the entry; and since `georgia` remains indexed, the repeated request fails
as not-found. -/
theorem font_error_handling_witness :
    FontLib.Font (fun _ => []) (fun _ _ => (none : Option Nat)) flTwoFonts
        "helvetica" 12 =
      (Except.error (FontErr.notFound (goToLower "helvetica") flTwoFonts.FontPaths),
       flTwoFonts, 0) ∧
    FontLib.Font (fun _ => []) (fun _ _ => (none : Option Nat)) flTwoFonts
        "Arial" 12 =
      (Except.error (FontErr.loadErr (goToLower "Arial") "/fonts/arial.ttf"),
       { flTwoFonts with
         FontsAvail := eraseKey flTwoFonts.FontsAvail (goToLower "Arial") }, 1) ∧
    FontLib.Font (fun _ => []) (fun _ _ => (none : Option Nat))
        { flTwoFonts with
          FontsAvail := eraseKey flTwoFonts.FontsAvail (goToLower "Arial") }
        "Arial" 12 =
      (Except.error (FontErr.notFound (goToLower "Arial") flTwoFonts.FontPaths),
       { flTwoFonts with
         FontsAvail := eraseKey flTwoFonts.FontsAvail (goToLower "Arial") }, 0) :=
  ⟨(font_error_handling (fun _ => []) (fun _ => []) (fun _ _ => none) (fun _ _ => none)
      flTwoFonts "helvetica" 12 (Or.inl (by decide)) (by decide)).1 (by decide),
   ((font_error_handling (fun _ => []) (fun _ => []) (fun _ _ => none) (fun _ _ => none)
      flTwoFonts "Arial" 12 (Or.inl (by decide)) (by decide)).2
      "/fonts/arial.ttf" (by decide) (by decide) rfl).1,
   ((font_error_handling (fun _ => []) (fun _ => []) (fun _ _ => none) (fun _ _ => none)
      flTwoFonts "Arial" 12 (Or.inl (by decide)) (by decide)).2
      "/fonts/arial.ttf" (by decide) (by decide) rfl).2 (by decide)⟩

/-- C5: after a successful `Font(name, points)` call, a second call with
the same points and the same name up to letter case finds the face in the
`Faces` cache — which `Init`'s possible rescan never touches — so it
returns the very face handle of the first call and performs zero decoder
invocations, whatever filesystem scan `scan2` and decoder `decode2` the
second call might see. -/
theorem font_second_call_cached {F : Type}
    (scan scan2 : List String → List (String × String))
    (decode decode2 : String → ℚ → Option F)
    (fl fl2 : FontLib F) (nm nm2 : String) (pts : ℚ) (face : F) (c : Nat)
    (hcase : goToLower nm2 = goToLower nm)
    (h : FontLib.Font scan decode fl nm pts = (Except.ok face, fl2, c)) :
    (FontLib.Font scan2 decode2 fl2 nm2 pts).1 = Except.ok face ∧
    (FontLib.Font scan2 decode2 fl2 nm2 pts).2.2 = 0 := by
  have hfaces : lookupFace fl2.Faces (goToLower nm) pts = some face := by
    unfold FontLib.Font at h
    cases hl : lookupFace (FontLib.Init scan fl).Faces (goToLower nm) pts with
    | some f =>
      simp only [hl] at h
      injection h with h1 h2
      injection h2 with h2a h2b
      injection h1 with hf
      subst hf
      subst h2a
      exact hl
    | none =>
      simp only [hl] at h
      by_cases hp : lookupD (FontLib.Init scan fl).FontsAvail (goToLower nm) = ""
      · simp [hp] at h
      · simp only [ne_eq, hp, not_false_eq_true, if_true] at h
        cases hd : decode (lookupD (FontLib.Init scan fl).FontsAvail (goToLower nm)) pts with
        | none => simp [hd] at h
        | some f =>
          simp only [hd] at h
          injection h with h1 h2
          injection h2 with h2a h2b
          injection h1 with hf
          subst hf
          subst h2a
          simp [lookupFace_insertFace]
  unfold FontLib.Font
  simp [hcase, init_faces, hfaces]

/-- Witness for C5: loading `Arial` at 12 on `flArial` with an
always-succeeding decoder caches the face; the repeat call (spelled
`ARIAL`, with an always-failing decoder) returns it from the cache with
zero decodes. -/
theorem font_second_call_cached_witness :
    (FontLib.Font (fun _ => []) (fun _ _ => (none : Option Nat))
        { flArial with Faces := insertFace flArial.Faces (goToLower "Arial") 12 7 }
        "ARIAL" 12).1 = Except.ok 7 ∧
    (FontLib.Font (fun _ => []) (fun _ _ => (none : Option Nat))
        { flArial with Faces := insertFace flArial.Faces (goToLower "Arial") 12 7 }
        "ARIAL" 12).2.2 = 0 :=
  font_second_call_cached (fun _ => []) (fun _ => []) (fun _ _ => some 7)
    (fun _ _ => none) flArial
    { flArial with Faces := insertFace flArial.Faces (goToLower "Arial") 12 7 }
    "Arial" "ARIAL" 12 7 1 (by decide) rfl

/-- C7 counterexample: with a face loaded and a size whose dots round to 0
(the zero-valued default `FontStyle`), `ComputeMetrics` sets `Em` to 12
(font.go lines 215-218, 221), not to the rounded size 0 that the claim
prescribes. -/
theorem computeMetrics_zero_size_em :
    fsZeroSize.Face.isSome = true ∧
    mathRound fsZeroSize.SizeDots = 0 ∧
    (ComputeMetrics ctxt0 fsZeroSize).Em = 12 ∧
    ((mathRound fsZeroSize.SizeDots : ℤ) : ℚ) ≠ 12 := by
  refine ⟨rfl, by decide, by decide, by decide⟩

/-- C7 (amended with the zero-size clamp on `Em`): `ComputeMetrics` is the
identity when no face is loaded; otherwise it sets `Em` to the rounded size
in dots — or to 12 when that rounds to 0 — `Ex` to the height of the `x`
glyph bounding box (0.5×Em when unavailable), `Ch` to the width of the `0`
glyph bounding box (0.5×Em when unavailable), and `Rem` to 12 points
converted to dots under the given context. -/
theorem computeMetrics_fields (ctxt : UnitsContext) (fs : FontStyle) :
    (fs.Face = none → ComputeMetrics ctxt fs = fs) ∧
    (∀ face, fs.Face = some face →
      ((ComputeMetrics ctxt fs).Em =
        if mathRound fs.SizeDots = 0 then 12 else (mathRound fs.SizeDots : ℚ)) ∧
      (∀ xb, face.glyphBounds 'x' = some xb →
        (ComputeMetrics ctxt fs).Ex = FixedToFloat32 (xb.maxY - xb.minY)) ∧
      (face.glyphBounds 'x' = none →
        (ComputeMetrics ctxt fs).Ex = 0.5 * (ComputeMetrics ctxt fs).Em) ∧
      (∀ xb, face.glyphBounds '0' = some xb →
        (ComputeMetrics ctxt fs).Ch = FixedToFloat32 (xb.maxX - xb.minX)) ∧
      (face.glyphBounds '0' = none →
        (ComputeMetrics ctxt fs).Ch = 0.5 * (ComputeMetrics ctxt fs).Em) ∧
      (ComputeMetrics ctxt fs).Rem = ctxt.toDotsPt 12) := by
  constructor
  · intro h
    unfold ComputeMetrics
    simp [h]
  · intro face hf
    refine ⟨computeMetrics_em ctxt fs face hf, ?_, ?_, ?_, ?_, ?_⟩ <;>
      unfold ComputeMetrics <;> simp only [hf] <;>
      cases hx : face.glyphBounds 'x' <;> cases h0 : face.glyphBounds '0' <;>
        simp_all [hx, h0, Int.cast_eq_zero]

/-- Witness for C7 (amended): identity on the face-less `fsZeroNoFace`; on
`fsZeroSize` (a glyph-less face at size 0) the clamped `Em`, the half-`Em`
fallbacks for `Ex` and `Ch`, and the context-converted `Rem`. -/
theorem computeMetrics_fields_witness :
    ComputeMetrics ctxt0 fsZeroNoFace = fsZeroNoFace ∧
    (ComputeMetrics ctxt0 fsZeroSize).Em =
      (if mathRound fsZeroSize.SizeDots = 0 then 12
       else (mathRound fsZeroSize.SizeDots : ℚ)) ∧
    (ComputeMetrics ctxt0 fsZeroSize).Ex = 0.5 * (ComputeMetrics ctxt0 fsZeroSize).Em ∧
    (ComputeMetrics ctxt0 fsZeroSize).Ch = 0.5 * (ComputeMetrics ctxt0 fsZeroSize).Em ∧
    (ComputeMetrics ctxt0 fsZeroSize).Rem = ctxt0.toDotsPt 12 :=
  ⟨(computeMetrics_fields ctxt0 fsZeroNoFace).1 rfl,
   ((computeMetrics_fields ctxt0 fsZeroSize).2 faceNoGlyphs rfl).1,
   ((computeMetrics_fields ctxt0 fsZeroSize).2 faceNoGlyphs rfl).2.2.1 rfl,
   ((computeMetrics_fields ctxt0 fsZeroSize).2 faceNoGlyphs rfl).2.2.2.2.1 rfl,
   ((computeMetrics_fields ctxt0 fsZeroSize).2 faceNoGlyphs rfl).2.2.2.2.2⟩

/-- Behaviour of `LoadFont` with an exhausted fallback chain, at a size whose dots round
to 0: the single `Font` request is at 12 dots, the result holds a face, its
size is untouched, and its `Em` is 12. -/
theorem loadFont_zero_aux (scan : List String → List (String × String))
    (decode : String → ℚ → Option Face) (prefs : String)
    (ctxt : UnitsContext) (fl : FontLib Face) (fs : FontStyle)
    (h : mathRound fs.SizeDots = 0) :
    (∀ p ∈ (LoadFont scan decode prefs ctxt fl fs "").2.2, p.2 = 12) ∧
    (LoadFont scan decode prefs ctxt fl fs "").1.Em = 12 ∧
    (LoadFont scan decode prefs ctxt fl fs "").1.Face.isSome = true ∧
    (LoadFont scan decode prefs ctxt fl fs "").1.SizeDots = fs.SizeDots := by
  unfold LoadFont
  simp only [h, Int.cast_zero, if_pos rfl, ne_eq, not_true_eq_false, if_false,
    reduceIte]
  rcases hF : FontLib.Font scan decode fl (FaceNm (fun nm => fl.FontAvail fl nm) prefs fs).1 12
    with ⟨e | f, fl1, cnt⟩ <;> simp only [hF]
  case mk.ok =>
    refine ⟨by simp, ?_, ?_, ?_⟩
    · rw [computeMetrics_em _ _ f rfl]
      simp [h]
    · rw [(computeMetrics_preserve _ _).2]
      rfl
    · exact (computeMetrics_preserve _ _).1
  case mk.error =>
    cases hfc : fs.Face with
    | none =>
      simp only [hfc, Option.isNone_none, if_true]
      refine ⟨by simp, ?_, ?_, ?_⟩
      · rw [computeMetrics_em _ _ Face7x13 rfl]
        simp [h]
      · rw [(computeMetrics_preserve _ _).2]
        rfl
      · exact (computeMetrics_preserve _ _).1
    | some f0 =>
      simp only [hfc, Option.isNone_some, Bool.false_eq_true, if_false]
      refine ⟨by simp, ?_, ?_, ?_⟩
      · rw [computeMetrics_em _ _ f0 rfl]
        simp [h]
      · rw [(computeMetrics_preserve _ _).2]
        rfl
      · exact (computeMetrics_preserve _ _).1

/-- C10: for every `FontStyle` whose size in dots rounds to 0 (including
the zero-valued default style), every `(name, points)` request `LoadFont`
makes to the font library — the direct one and any fallback retry — is at
12 dots, and the closing metrics pass sets `Em` to 12: a zero requested
size is silently treated as size 12. -/
theorem loadFont_zero_size_defaults (scan : List String → List (String × String))
    (decode : String → ℚ → Option Face)
    (prefs : String) (ctxt : UnitsContext) (fl : FontLib Face) (fs : FontStyle)
    (fallback : String) (h : mathRound fs.SizeDots = 0) :
    (∀ p ∈ (LoadFont scan decode prefs ctxt fl fs fallback).2.2, p.2 = 12) ∧
    (LoadFont scan decode prefs ctxt fl fs fallback).1.Em = 12 := by
  by_cases hfb : fallback = ""
  · subst hfb
    exact ⟨(loadFont_zero_aux scan decode prefs ctxt fl fs h).1,
           (loadFont_zero_aux scan decode prefs ctxt fl fs h).2.1⟩
  · unfold LoadFont
    simp only [h, Int.cast_zero, reduceIte, ne_eq, hfb, not_false_eq_true, if_true]
    rcases hF : FontLib.Font scan decode fl (FaceNm (fun nm => fl.FontAvail fl nm) prefs fs).1 12
      with ⟨e | f, fl1, cnt⟩ <;> simp only [hF]
    · cases hfc : fs.Face with
      | none =>
        simp only [hfc, Option.isNone_none, if_true]
        obtain ⟨hlog, hEm, hFace, hSz⟩ :=
          loadFont_zero_aux scan decode prefs ctxt fl1
            { fs with Face := none, FaceName := fallback } h
        constructor
        · intro p hp
          simp only [List.mem_cons] at hp
          rcases hp with rfl | hp
          · rfl
          · exact hlog p hp
        · obtain ⟨f1, hf1⟩ := Option.isSome_iff_exists.mp hFace
          rw [computeMetrics_em _ _ f1 hf1, hSz]
          simp [h]
      | some f0 =>
        simp only [hfc, Option.isNone_some, Bool.false_eq_true, if_false]
        refine ⟨by simp, ?_⟩
        rw [computeMetrics_em _ _ f0 rfl]
        simp [h]
    · refine ⟨by simp, ?_⟩
      rw [computeMetrics_em _ _ f rfl]
      simp [h]

/-- Witness for C10: the zero-valued size on an empty library with an
always-failing decoder and no fallback — the lone request is at 12 dots
and the resulting `Em` is 12. -/
theorem loadFont_zero_size_defaults_witness :
    (∀ p ∈ (LoadFont (fun _ => []) (fun _ _ => none) "" ctxt0 flEmptyFace
        fsZeroNoFace "").2.2, p.2 = 12) ∧
    (LoadFont (fun _ => []) (fun _ _ => none) "" ctxt0 flEmptyFace
        fsZeroNoFace "").1.Em = 12 :=
  loadFont_zero_size_defaults (fun _ => []) (fun _ _ => none) "" ctxt0 flEmptyFace
    fsZeroNoFace "" (by decide)

end Gi
